import Mathlib

/-
Verification of the Quiz Session Engine and the Question Generator layer
of the Khan-Academy-style learning app.

The data model follows src/types/index.ts; the engine operations follow
the QuizEngine class in src/services/CourseService.ts; the registry
follows QuizGeneratorRegistryClass in src/generators/QuizGeneratorRegistry.ts;
the generators follow DerivativesBasicGenerator, IntegralsGenerator and
GenericMathGenerator.

Modelling conventions:
- JavaScript arrays become List, numbers become Nat or Int as appropriate
  (all quantities involved are integers; the single floating-point
  comparison, the star ratio test, is modelled over the rationals).
- Math.random() is modelled by an explicit stream of draws (Rng below):
  each call to the source helper randInt consumes one draw.  The
  comparator-based option shuffle written as sort with a random comparator
  is modelled by an explicit shuffle function parameter, constrained in
  the theorems to produce a permutation of its input; the Fisher-Yates
  shuffle written out in DerivativesBasicGenerator is translated verbatim.
- Date.now() is modelled by an explicit numeric parameter called now.
- The mutable engine fields pool and poolIndex become an explicit
  QuizEngineState value threaded through the state-changing operations.
-/

namespace KhanQuiz

/-- Difficulty levels of src/types/index.ts. -/
inductive Difficulty
  | easy
  | medium
  | hard
deriving DecidableEq, Repr

/-- QuizOption of src/types/index.ts: id is a single-letter label assigned
after shuffling, text is the answer text. -/
structure QuizOption where
  id : String
  text : String
deriving DecidableEq, Repr

/-- QuizQuestion of src/types/index.ts. -/
structure QuizQuestion where
  id : String
  text : String
  options : List QuizOption
  correctOptionId : String
  difficulty : Difficulty
  explanation : Option String
deriving DecidableEq, Repr

/-- One recorded answer, from the answers field of QuizSession. -/
structure Answer where
  questionId : String
  selectedOptionId : String
  correct : Bool
deriving DecidableEq, Repr

/-- QuizSession of src/types/index.ts. -/
structure QuizSession where
  courseId : String
  unitId : String
  questions : List QuizQuestion
  currentIndex : Nat
  answers : List Answer
  bonusTriggered : Bool
  stars : Nat
  isGrandQuiz : Bool
deriving DecidableEq, Repr

/-- QuizResult of src/types/index.ts. -/
structure QuizResult where
  totalQuestions : Nat
  correctAnswers : Nat
  stars : Nat
  bonusUsed : Bool
deriving DecidableEq, Repr

/-- DifficultyDistribution of src/generators/QuizGeneratorRegistry.ts. -/
structure DifficultyDistribution where
  easy : Nat
  medium : Nat
  hard : Nat
deriving DecidableEq, Repr

/-- Constant REGULAR_QUESTION_COUNT of src/services/CourseService.ts. -/
def REGULAR_QUESTION_COUNT : Nat := 4

/-- Constant GRAND_QUIZ_QUESTION_COUNT of src/services/CourseService.ts. -/
def GRAND_QUIZ_QUESTION_COUNT : Nat := 20

/-- Constant DEFAULT_DISTRIBUTION of src/services/CourseService.ts. -/
def DEFAULT_DISTRIBUTION : DifficultyDistribution := ⟨1, 2, 1⟩

/-- Constant POOL_SIZE_MULTIPLIER of src/services/CourseService.ts. -/
def POOL_SIZE_MULTIPLIER : Nat := 5

/-- JavaScript Array.prototype.slice with explicit start and end indices. -/
def listSlice (l : List α) (start stop : Nat) : List α :=
  (l.drop start).take (stop - start)

/-- A generator behaviour as seen by the registry: given a requested count
and a difficulty distribution it yields a list of questions.  The ambient
randomness of the concrete generators is folded into the function value. -/
def GeneratorFun := Nat → DifficultyDistribution → List QuizQuestion

/-- The generator table of QuizGeneratorRegistryClass: a lookup from
generator id to the registered generator, absent when never registered. -/
def Registry := String → Option GeneratorFun

/-- QuizGeneratorRegistryClass.generateQuestions: resolves the generator id;
when no generator is registered it warns and returns the empty list,
otherwise it delegates to the generator. -/
def generateQuestions (reg : Registry) (generatorId : String) (count : Nat)
    (distribution : DifficultyDistribution) : List QuizQuestion :=
  match reg generatorId with
  | none => []
  | some g => g count distribution

/-- The mutable fields of the QuizEngine class: the question pool and the
pool cursor. -/
structure QuizEngineState where
  pool : List QuizQuestion
  poolIndex : Nat
deriving DecidableEq, Repr

/-- QuizEngine.createSession.  Generates a pool of questionCount * 5
questions for the generator id; returns null when the pool is empty,
otherwise serves the first questionCount pool entries and leaves the pool
cursor at questionCount. -/
def createSession (reg : Registry) (e : QuizEngineState)
    (courseId unitId generatorId : String) (isGrandQuiz : Bool) :
    QuizEngineState × Option QuizSession :=
  let questionCount := if isGrandQuiz then GRAND_QUIZ_QUESTION_COUNT else REGULAR_QUESTION_COUNT
  let poolSize := questionCount * POOL_SIZE_MULTIPLIER
  let pool := generateQuestions reg generatorId poolSize DEFAULT_DISTRIBUTION
  if pool.length = 0 then
    ({ e with pool := pool }, none)
  else
    let questions := listSlice pool 0 questionCount
    ({ pool := pool, poolIndex := questionCount },
     some { courseId := courseId, unitId := unitId, questions := questions,
            currentIndex := 0, answers := [], bonusTriggered := false,
            stars := 0, isGrandQuiz := isGrandQuiz })

/-- QuizEngine.submitAnswer.  Grades the selected option against the
question at currentIndex, appends the answer and advances the cursor;
returns the session unchanged when there is no current question. -/
def submitAnswer (s : QuizSession) (selectedOptionId : String) : QuizSession :=
  match s.questions[s.currentIndex]? with
  | none => s
  | some currentQuestion =>
    let correct := selectedOptionId == currentQuestion.correctOptionId
    { s with
      answers := s.answers ++ [⟨currentQuestion.id, selectedOptionId, correct⟩],
      currentIndex := s.currentIndex + 1 }

/-- QuizEngine.checkQuizState.  Decides between continuing the quiz,
offering the bonus question and completing. -/
def checkQuizState (s : QuizSession) : String :=
  let regularCount := if s.isGrandQuiz then GRAND_QUIZ_QUESTION_COUNT else REGULAR_QUESTION_COUNT
  if s.currentIndex < regularCount then
    "continue"
  else if s.currentIndex = regularCount ∧ s.bonusTriggered = false then
    let wrongCount := (s.answers.filter (fun a => !a.correct)).length
    if wrongCount = 0 then "complete"
    else if wrongCount = 1 then "bonus_needed"
    else "complete"
  else
    "complete"

/-- QuizEngine.addBonusQuestion.  Appends the pool entry at the pool cursor
when one remains and advances the cursor; in both cases bonusTriggered is
set. -/
def addBonusQuestion (e : QuizEngineState) (s : QuizSession) :
    QuizEngineState × QuizSession :=
  if h : e.poolIndex < e.pool.length then
    let bonusQ := e.pool.get ⟨e.poolIndex, h⟩
    ({ e with poolIndex := e.poolIndex + 1 },
     { s with questions := s.questions ++ [bonusQ], bonusTriggered := true })
  else
    (e, { s with bonusTriggered := true })

/-- QuizEngine.getRetrySession.  Serves the next batch from the pool; when
fewer than questionCount entries remain the cursor wraps to 0 and the
first questionCount entries are served again. -/
def getRetrySession (e : QuizEngineState) (s : QuizSession) :
    QuizEngineState × QuizSession :=
  let questionCount := if s.isGrandQuiz then GRAND_QUIZ_QUESTION_COUNT else REGULAR_QUESTION_COUNT
  let start := e.poolIndex
  let stop := min (start + questionCount) e.pool.length
  let questions := listSlice e.pool start stop
  if questions.length < questionCount then
    ({ e with poolIndex := 0 },
     { s with questions := listSlice e.pool 0 questionCount,
              currentIndex := 0, answers := [], bonusTriggered := false, stars := 0 })
  else
    ({ e with poolIndex := stop },
     { s with questions := questions,
              currentIndex := 0, answers := [], bonusTriggered := false, stars := 0 })

/-- QuizEngine.calculateResult.  Counts total and correct answers and
applies the star policy; the ratio comparison of the source is over
floating-point numbers and is modelled over the rationals. -/
def calculateResult (s : QuizSession) : QuizResult :=
  let totalQuestions := s.answers.length
  let correctAnswers := (s.answers.filter (fun a => a.correct)).length
  let regularCount := if s.isGrandQuiz then GRAND_QUIZ_QUESTION_COUNT else REGULAR_QUESTION_COUNT
  let regularCorrect := ((listSlice s.answers 0 regularCount).filter (fun a => a.correct)).length
  let stars : Nat :=
    if regularCorrect = regularCount then
      3
    else if s.bonusTriggered then
      let bonusCorrect := ((s.answers[regularCount]?).map (fun a => a.correct)).getD false
      if bonusCorrect then 2 else 1
    else
      let frac : ℚ := (correctAnswers : ℚ) / (regularCount : ℚ)
      if frac ≥ 0.5 then 1 else 0
  { totalQuestions := totalQuestions, correctAnswers := correctAnswers,
    stars := stars, bonusUsed := s.bonusTriggered }

/-- One externally triggered state-changing step against a live engine and
session: an answer submission, the bonus-question request or a retry
request. -/
inductive EngineOp
  | submit (selectedOptionId : String)
  | bonus
  | retry
deriving DecidableEq, Repr

/-- Applies one EngineOp to an engine-state and session pair. -/
def engineStep (p : QuizEngineState × QuizSession) (op : EngineOp) :
    QuizEngineState × QuizSession :=
  match op with
  | .submit o => (p.1, submitAnswer p.2 o)
  | .bonus => addBonusQuestion p.1 p.2
  | .retry => getRetrySession p.1 p.2

/-- Scenario check (perfect run): four correct answers give three stars
and no bonus. -/
example :
    calculateResult
      { courseId := "c", unitId := "u", questions := [], currentIndex := 4,
        answers := [⟨"q1", "A", true⟩, ⟨"q2", "A", true⟩, ⟨"q3", "A", true⟩,
                    ⟨"q4", "A", true⟩],
        bonusTriggered := false, stars := 0, isGrandQuiz := false } =
      { totalQuestions := 4, correctAnswers := 4, stars := 3, bonusUsed := false } := by
  decide

/-- Scenario check (recoverable miss): three correct plus a correct bonus
answer give two stars; with a wrong bonus answer one star. -/
example :
    calculateResult
      { courseId := "c", unitId := "u", questions := [], currentIndex := 5,
        answers := [⟨"q1", "A", true⟩, ⟨"q2", "A", true⟩, ⟨"q3", "A", true⟩,
                    ⟨"q4", "A", false⟩, ⟨"q5", "A", true⟩],
        bonusTriggered := true, stars := 0, isGrandQuiz := false } =
      { totalQuestions := 5, correctAnswers := 4, stars := 2, bonusUsed := true } ∧
    calculateResult
      { courseId := "c", unitId := "u", questions := [], currentIndex := 5,
        answers := [⟨"q1", "A", true⟩, ⟨"q2", "A", true⟩, ⟨"q3", "A", true⟩,
                    ⟨"q4", "A", false⟩, ⟨"q5", "A", false⟩],
        bonusTriggered := true, stars := 0, isGrandQuiz := false } =
      { totalQuestions := 5, correctAnswers := 3, stars := 1, bonusUsed := true } := by
  constructor <;> decide

/-- Scenario check (unrecoverable and failing runs): two wrong answers
give one star by the one-half rule, three wrong give zero stars. -/
example :
    calculateResult
      { courseId := "c", unitId := "u", questions := [], currentIndex := 4,
        answers := [⟨"q1", "A", true⟩, ⟨"q2", "A", true⟩, ⟨"q3", "A", false⟩,
                    ⟨"q4", "A", false⟩],
        bonusTriggered := false, stars := 0, isGrandQuiz := false } =
      { totalQuestions := 4, correctAnswers := 2, stars := 1, bonusUsed := false } ∧
    calculateResult
      { courseId := "c", unitId := "u", questions := [], currentIndex := 4,
        answers := [⟨"q1", "A", false⟩, ⟨"q2", "A", false⟩, ⟨"q3", "A", false⟩,
                    ⟨"q4", "A", true⟩],
        bonusTriggered := false, stars := 0, isGrandQuiz := false } =
      { totalQuestions := 4, correctAnswers := 1, stars := 0, bonusUsed := false } := by
  constructor <;>
    norm_num [calculateResult, listSlice, List.filter, REGULAR_QUESTION_COUNT]

/-- Scenario check (bonus boundary): a perfect prefix completes, one
wrong requests the bonus, two wrong complete. -/
example :
    checkQuizState
      { courseId := "c", unitId := "u", questions := [], currentIndex := 4,
        answers := [⟨"q1", "A", true⟩, ⟨"q2", "A", true⟩, ⟨"q3", "A", true⟩,
                    ⟨"q4", "A", true⟩],
        bonusTriggered := false, stars := 0, isGrandQuiz := false } = "complete" ∧
    checkQuizState
      { courseId := "c", unitId := "u", questions := [], currentIndex := 4,
        answers := [⟨"q1", "A", true⟩, ⟨"q2", "A", true⟩, ⟨"q3", "A", true⟩,
                    ⟨"q4", "A", false⟩],
        bonusTriggered := false, stars := 0, isGrandQuiz := false } = "bonus_needed" ∧
    checkQuizState
      { courseId := "c", unitId := "u", questions := [], currentIndex := 4,
        answers := [⟨"q1", "A", true⟩, ⟨"q2", "A", true⟩, ⟨"q3", "A", false⟩,
                    ⟨"q4", "A", false⟩],
        bonusTriggered := false, stars := 0, isGrandQuiz := false } = "complete" := by
  refine ⟨by decide, by decide, by decide⟩

/-- Arithmetic bridge for the star policy: the floating-point test
correctAnswers / regularCount >= 0.5 of the source, read over the
rationals, is the integer test regularCount <= 2 * correctAnswers. -/
theorem half_le_div_iff (c r : Nat) (hr : 0 < r) :
    ((0.5 : ℚ) ≤ (c : ℚ) / (r : ℚ)) ↔ (r ≤ 2 * c) := by
  rw [le_div_iff₀ (by exact_mod_cast hr : (0 : ℚ) < (r : ℚ))]
  constructor
  · intro h
    have h2 : (r : ℚ) ≤ 2 * (c : ℚ) := by nlinarith
    exact_mod_cast h2
  · intro h
    have h2 : (r : ℚ) ≤ 2 * (c : ℚ) := by exact_mod_cast h
    nlinarith

/-- C1: calculateResult returns totalQuestions = answers.length,
correctAnswers = number of correct answers, bonusUsed = bonusTriggered,
and stars: 3 when the correct answers among the first regularCount equal
regularCount; otherwise when bonusTriggered, 2 when the answer at index
regularCount exists and is correct and 1 otherwise (also when absent);
otherwise 1 when correctAnswers / regularCount is at least one half and 0
below that, with regularCount = 20 for a grand quiz and 4 otherwise. -/
theorem calculateResult_spec (s : QuizSession) :
    calculateResult s =
      { totalQuestions := s.answers.length,
        correctAnswers := s.answers.countP (fun a => a.correct),
        stars :=
          if (s.answers.take (if s.isGrandQuiz then 20 else 4)).countP (fun a => a.correct) =
              (if s.isGrandQuiz then 20 else 4) then 3
          else if s.bonusTriggered then
            match s.answers[(if s.isGrandQuiz then 20 else 4)]? with
            | some a => if a.correct then 2 else 1
            | none => 1
          else if (if s.isGrandQuiz then 20 else 4) ≤
              2 * s.answers.countP (fun a => a.correct) then 1 else 0,
        bonusUsed := s.bonusTriggered } := by
  have hrc : (0 : Nat) < (if s.isGrandQuiz then GRAND_QUIZ_QUESTION_COUNT
      else REGULAR_QUESTION_COUNT) := by
    cases s.isGrandQuiz <;> simp [GRAND_QUIZ_QUESTION_COUNT, REGULAR_QUESTION_COUNT]
  unfold calculateResult
  simp only [GRAND_QUIZ_QUESTION_COUNT, REGULAR_QUESTION_COUNT] at hrc ⊢
  simp only [listSlice, List.drop_zero, Nat.sub_zero, List.countP_eq_length_filter]
  congr 1
  by_cases h1 : ((s.answers.take (if s.isGrandQuiz then 20 else 4)).filter
      (fun a => a.correct)).length = (if s.isGrandQuiz then 20 else 4)
  · simp [h1]
  · by_cases hb : s.bonusTriggered
    · simp only [h1, hb, if_false, if_true, ite_true, ite_false]
      cases hx : s.answers[(if s.isGrandQuiz then 20 else 4)]? <;> simp [hx]
    · simp only [h1, hb, if_false, ite_false, Bool.false_eq_true]
      simp only [ge_iff_le, half_le_div_iff _ _ hrc]

/-- Session used to refute the literal reading of C2: the invariant
answers.length = currentIndex is broken, the first four answers are
correct but a fifth, incorrect answer is also recorded. -/
def overfullSession : QuizSession :=
  { courseId := "c", unitId := "u", questions := [], currentIndex := 4,
    answers := [⟨"q1", "A", true⟩, ⟨"q2", "A", true⟩, ⟨"q3", "A", true⟩,
                ⟨"q4", "A", true⟩, ⟨"q5", "A", false⟩],
    bonusTriggered := false, stars := 0, isGrandQuiz := false }

/-- C2 counterexample: a session with currentIndex = regularCount = 4, no
bonus, and zero incorrect answers among the first 4 recorded answers, for
which the claim demands the result complete; the code counts incorrect
answers over the whole answers list and returns bonus_needed. -/
theorem checkQuizState_claim_counterexample :
    overfullSession.isGrandQuiz = false ∧
    overfullSession.currentIndex = 4 ∧
    overfullSession.bonusTriggered = false ∧
    (overfullSession.answers.take 4).countP (fun a => !a.correct) = 0 ∧
    checkQuizState overfullSession = "bonus_needed" ∧
    checkQuizState overfullSession ≠ "complete" := by
  decide

/-- C2 (amended): checkState returns continue when currentIndex is below
regularCount; at currentIndex = regularCount with no bonus triggered it
keys on the number of incorrect answers among all recorded answers (which
equals the count among the first regularCount whenever the invariant
answers.length = currentIndex holds): 0 gives complete, 1 gives
bonus_needed, 2 or more gives complete; in every other case it returns
complete. -/
theorem checkQuizState_spec (s : QuizSession) :
    (s.currentIndex < (if s.isGrandQuiz then 20 else 4) →
      checkQuizState s = "continue") ∧
    (s.currentIndex = (if s.isGrandQuiz then 20 else 4) → s.bonusTriggered = false →
      checkQuizState s =
        (if s.answers.countP (fun a => !a.correct) = 0 then "complete"
         else if s.answers.countP (fun a => !a.correct) = 1 then "bonus_needed"
         else "complete")) ∧
    ((if s.isGrandQuiz then 20 else 4) ≤ s.currentIndex →
      ((if s.isGrandQuiz then 20 else 4) < s.currentIndex ∨ s.bonusTriggered = true) →
      checkQuizState s = "complete") := by
  unfold checkQuizState
  simp only [GRAND_QUIZ_QUESTION_COUNT, REGULAR_QUESTION_COUNT,
    List.countP_eq_length_filter]
  refine ⟨?_, ?_, ?_⟩
  · intro h
    rw [if_pos h]
  · intro h1 h2
    rw [if_neg (by omega), if_pos ⟨h1, h2⟩]
  · intro h1 h2
    rw [if_neg (by omega), if_neg ?_]
    rintro ⟨hEq, hBf⟩
    rcases h2 with h2 | h2
    · omega
    · rw [hBf] at h2
      exact Bool.false_ne_true h2

/-- Session for exercising checkQuizState at the bonus boundary: four
answers, exactly one incorrect. -/
def oneWrongSession : QuizSession :=
  { courseId := "c", unitId := "u", questions := [], currentIndex := 4,
    answers := [⟨"q1", "A", true⟩, ⟨"q2", "A", true⟩, ⟨"q3", "A", true⟩,
                ⟨"q4", "A", false⟩],
    bonusTriggered := false, stars := 0, isGrandQuiz := false }

/-- Witness for the amended C2 at a concrete session with one wrong
answer: the bonus question is requested. -/
theorem checkQuizState_spec_witness :
    checkQuizState oneWrongSession = "bonus_needed" := by
  have h := (checkQuizState_spec oneWrongSession).2.1 (by decide) (by decide)
  exact h.trans (by decide)

/-- C4: submitAnswer is the identity when currentIndex is at or beyond
questions.length; otherwise it appends exactly one answer carrying the id
of the question at currentIndex, the selected option, and a correct flag
that is true exactly when the selected option equals that question's
correctOptionId; it increments currentIndex and changes nothing else. -/
theorem submitAnswer_spec (s : QuizSession) (o : String) :
    (s.questions.length ≤ s.currentIndex → submitAnswer s o = s) ∧
    ∀ (h : s.currentIndex < s.questions.length),
      submitAnswer s o =
        { s with
          answers := s.answers ++
            [⟨(s.questions.get ⟨s.currentIndex, h⟩).id, o,
              decide (o = (s.questions.get ⟨s.currentIndex, h⟩).correctOptionId)⟩],
          currentIndex := s.currentIndex + 1 } := by
  constructor
  · intro hle
    unfold submitAnswer
    have hnone : s.questions[s.currentIndex]? = none :=
      List.getElem?_eq_none_iff.mpr hle
    rw [hnone]
  · intro h
    unfold submitAnswer
    rw [List.getElem?_eq_getElem h]
    simp only [List.get_eq_getElem]
    rfl

/-- A concrete two-option question used by several witnesses. -/
def sampleQA : QuizQuestion :=
  { id := "q1", text := "t", options := [⟨"A", "1"⟩, ⟨"B", "2"⟩],
    correctOptionId := "A", difficulty := .easy, explanation := none }

/-- A fresh one-question session used by the submitAnswer witness. -/
def oneQuestionSession : QuizSession :=
  { courseId := "c", unitId := "u", questions := [sampleQA], currentIndex := 0,
    answers := [], bonusTriggered := false, stars := 0, isGrandQuiz := false }

/-- Witness for C4: submitting the wrong option B on a fresh one-question
session records one incorrect answer and advances the cursor. -/
theorem submitAnswer_spec_witness :
    submitAnswer oneQuestionSession "B" =
      { oneQuestionSession with
        answers := [⟨"q1", "B", false⟩], currentIndex := 1 } := by
  have h := (submitAnswer_spec oneQuestionSession "B").2 (by decide)
  exact h.trans (by decide)

/-- Helper: the branch of addBonusQuestion with a pool entry left. -/
theorem addBonusQuestion_eq_of_lt (e : QuizEngineState) (s : QuizSession)
    (h : e.poolIndex < e.pool.length) :
    addBonusQuestion e s =
      ({ e with poolIndex := e.poolIndex + 1 },
       { s with questions := s.questions ++ [e.pool.get ⟨e.poolIndex, h⟩],
                bonusTriggered := true }) := by
  unfold addBonusQuestion
  rw [dif_pos h]

/-- Helper: the branch of addBonusQuestion on an exhausted pool. -/
theorem addBonusQuestion_eq_of_ge (e : QuizEngineState) (s : QuizSession)
    (h : e.pool.length ≤ e.poolIndex) :
    addBonusQuestion e s = (e, { s with bonusTriggered := true }) := by
  unfold addBonusQuestion
  rw [dif_neg (by omega)]

/-- Helper: the non-wrapping branch of getRetrySession, taken when at
least questionCount pool entries remain from the cursor. -/
theorem getRetrySession_eq_of_remaining (e : QuizEngineState) (s : QuizSession)
    (h : e.poolIndex + (if s.isGrandQuiz then 20 else 4) ≤ e.pool.length) :
    getRetrySession e s =
      ({ e with poolIndex := e.poolIndex + (if s.isGrandQuiz then 20 else 4) },
       { s with questions := (e.pool.drop e.poolIndex).take (if s.isGrandQuiz then 20 else 4),
                currentIndex := 0, answers := [], bonusTriggered := false,
                stars := 0 }) := by
  unfold getRetrySession listSlice
  simp only [GRAND_QUIZ_QUESTION_COUNT, REGULAR_QUESTION_COUNT]
  have hmin : min (e.poolIndex + (if s.isGrandQuiz then 20 else 4)) e.pool.length =
      e.poolIndex + (if s.isGrandQuiz then 20 else 4) := by omega
  rw [hmin]
  have hsub : e.poolIndex + (if s.isGrandQuiz then 20 else 4) - e.poolIndex =
      (if s.isGrandQuiz then 20 else 4) := by omega
  rw [hsub]
  rw [if_neg (by simp [List.length_take, List.length_drop]; omega)]

/-- Helper: the wrapping branch of getRetrySession, taken when fewer than
questionCount pool entries remain from the cursor; the cursor is reset to
0 and the first questionCount entries are served again. -/
theorem getRetrySession_eq_of_wrap (e : QuizEngineState) (s : QuizSession)
    (h : e.pool.length < e.poolIndex + (if s.isGrandQuiz then 20 else 4)) :
    getRetrySession e s =
      ({ e with poolIndex := 0 },
       { s with questions := e.pool.take (if s.isGrandQuiz then 20 else 4),
                currentIndex := 0, answers := [], bonusTriggered := false,
                stars := 0 }) := by
  unfold getRetrySession listSlice
  simp only [GRAND_QUIZ_QUESTION_COUNT, REGULAR_QUESTION_COUNT]
  have hq : (0 : Nat) < (if s.isGrandQuiz then 20 else 4) := by
    cases s.isGrandQuiz <;> simp
  rw [if_pos (by simp [List.length_take, List.length_drop]; omega)]
  simp

/-- C3 step lemma: each engine operation preserves the invariant
answers.length = currentIndex of the session component. -/
theorem engineStep_preserves_answers_length
    (p : QuizEngineState × QuizSession) (op : EngineOp)
    (hp : p.2.answers.length = p.2.currentIndex) :
    (engineStep p op).2.answers.length = (engineStep p op).2.currentIndex := by
  rcases p with ⟨e, s⟩
  cases op with
  | submit o =>
    show (submitAnswer s o).answers.length = (submitAnswer s o).currentIndex
    unfold submitAnswer
    cases h : s.questions[s.currentIndex]? <;> simp_all
  | bonus =>
    show (addBonusQuestion e s).2.answers.length = (addBonusQuestion e s).2.currentIndex
    unfold addBonusQuestion
    split <;> simpa using hp
  | retry =>
    show (getRetrySession e s).2.answers.length = (getRetrySession e s).2.currentIndex
    rcases Nat.lt_or_ge e.pool.length (e.poolIndex + (if s.isGrandQuiz then 20 else 4)) with h | h
    · rw [getRetrySession_eq_of_wrap e s h]
      simp
    · rw [getRetrySession_eq_of_remaining e s h]
      simp

/-- C3: any session produced by createSession satisfies
answers.length = currentIndex, and the invariant is preserved by every
sequence of submitAnswer, addBonusQuestion and getRetrySession calls. -/
theorem answers_length_invariant (reg : Registry) (e : QuizEngineState)
    (courseId unitId generatorId : String) (isGrandQuiz : Bool)
    (e1 : QuizEngineState) (s1 : QuizSession) (ops : List EngineOp)
    (hcreate : createSession reg e courseId unitId generatorId isGrandQuiz = (e1, some s1)) :
    (ops.foldl engineStep (e1, s1)).2.answers.length =
      (ops.foldl engineStep (e1, s1)).2.currentIndex := by
  have h0 : s1.answers.length = s1.currentIndex := by
    unfold createSession at hcreate
    by_cases hc : (generateQuestions reg generatorId
        ((if isGrandQuiz then GRAND_QUIZ_QUESTION_COUNT else REGULAR_QUESTION_COUNT) *
          POOL_SIZE_MULTIPLIER) DEFAULT_DISTRIBUTION).length = 0
    · simp only [hc, if_true, ite_true] at hcreate
      rw [Prod.mk.injEq] at hcreate
      exact absurd hcreate.2 (by simp)
    · simp only [hc, if_false, ite_false] at hcreate
      rw [Prod.mk.injEq] at hcreate
      have heq := Option.some.inj hcreate.2
      subst heq
      rfl
  suffices hgen : ∀ (p : QuizEngineState × QuizSession),
      p.2.answers.length = p.2.currentIndex →
      (ops.foldl engineStep p).2.answers.length = (ops.foldl engineStep p).2.currentIndex by
    exact hgen (e1, s1) h0
  induction ops with
  | nil => intro p hp; exact hp
  | cons op rest ih =>
    intro p hp
    exact ih (engineStep p op) (engineStep_preserves_answers_length p op hp)

/-- A generator behaviour returning count copies of the sample question;
used only to exercise createSession in witnesses. -/
def replicateGen : GeneratorFun := fun count _ => List.replicate count sampleQA

/-- A registry with exactly one registered id; used only in witnesses. -/
def sampleRegistry : Registry :=
  fun id => if id = "derivatives_basic" then some replicateGen else none

/-- An engine as freshly constructed: empty pool, cursor 0. -/
def freshEngine : QuizEngineState := { pool := [], poolIndex := 0 }

/-- The session created by sampleRegistry for a regular quiz. -/
def createdSession : QuizSession :=
  { courseId := "c", unitId := "u", questions := List.replicate 4 sampleQA,
    currentIndex := 0, answers := [], bonusTriggered := false, stars := 0,
    isGrandQuiz := false }

/-- Witness for C3 on a concrete created session and a concrete operation
sequence containing a submission, a bonus request, a retry and another
submission. -/
theorem answers_length_invariant_witness :
    (([EngineOp.submit "A", EngineOp.bonus, EngineOp.retry, EngineOp.submit "B"].foldl
        engineStep ({ pool := List.replicate 20 sampleQA, poolIndex := 4 }, createdSession)).2.answers.length =
      ([EngineOp.submit "A", EngineOp.bonus, EngineOp.retry, EngineOp.submit "B"].foldl
        engineStep ({ pool := List.replicate 20 sampleQA, poolIndex := 4 }, createdSession)).2.currentIndex) :=
  answers_length_invariant sampleRegistry freshEngine "c" "u" "derivatives_basic" false
    { pool := List.replicate 20 sampleQA, poolIndex := 4 } createdSession
    [EngineOp.submit "A", EngineOp.bonus, EngineOp.retry, EngineOp.submit "B"]
    (by decide)

/-- C5: createSession requests regularCount * 5 questions from the
registry with the default distribution; an unregistered generator id
yields the empty pool; an empty pool yields an absent session (with the
engine keeping its old cursor); otherwise the session holds the first
regularCount pool entries, currentIndex 0, no answers, bonusTriggered
false, and the pool cursor is left at regularCount. -/
theorem createSession_spec (reg : Registry) (e : QuizEngineState)
    (courseId unitId generatorId : String) (isGrandQuiz : Bool) :
    (reg generatorId = none →
      generateQuestions reg generatorId ((if isGrandQuiz then 20 else 4) * 5)
        DEFAULT_DISTRIBUTION = []) ∧
    (generateQuestions reg generatorId ((if isGrandQuiz then 20 else 4) * 5)
        DEFAULT_DISTRIBUTION = [] →
      createSession reg e courseId unitId generatorId isGrandQuiz =
        ({ e with pool := [] }, none)) ∧
    (generateQuestions reg generatorId ((if isGrandQuiz then 20 else 4) * 5)
        DEFAULT_DISTRIBUTION ≠ [] →
      createSession reg e courseId unitId generatorId isGrandQuiz =
        ({ pool := generateQuestions reg generatorId ((if isGrandQuiz then 20 else 4) * 5)
             DEFAULT_DISTRIBUTION,
           poolIndex := (if isGrandQuiz then 20 else 4) },
         some { courseId := courseId, unitId := unitId,
                questions := (generateQuestions reg generatorId
                  ((if isGrandQuiz then 20 else 4) * 5) DEFAULT_DISTRIBUTION).take
                    (if isGrandQuiz then 20 else 4),
                currentIndex := 0, answers := [], bonusTriggered := false,
                stars := 0, isGrandQuiz := isGrandQuiz })) := by
  refine ⟨?_, ?_, ?_⟩
  · intro hnone
    unfold generateQuestions
    rw [hnone]
  · intro hempty
    unfold createSession
    simp only [GRAND_QUIZ_QUESTION_COUNT, REGULAR_QUESTION_COUNT, POOL_SIZE_MULTIPLIER]
    rw [hempty]
    simp
  · intro hne
    unfold createSession
    simp only [GRAND_QUIZ_QUESTION_COUNT, REGULAR_QUESTION_COUNT, POOL_SIZE_MULTIPLIER]
    rw [if_neg (by simpa [List.length_eq_zero] using hne)]
    simp [listSlice]

/-- Witness for C5: an unregistered generator id produces the empty pool
and an absent session. -/
theorem createSession_spec_witness :
    sampleRegistry "limits_basic" = none ∧
    createSession sampleRegistry freshEngine "c" "u" "limits_basic" false =
      ({ freshEngine with pool := [] }, none) := by
  refine ⟨rfl, ?_⟩
  have h := (createSession_spec sampleRegistry freshEngine "c" "u" "limits_basic" false).2.1
    (by decide)
  exact h

/-- C6: with an unconsumed pool entry at the cursor, addBonusQuestion
appends exactly that entry to the session questions, advances the cursor
by one and sets bonusTriggered, leaving every other field unchanged; on
an exhausted pool it only sets bonusTriggered. -/
theorem addBonusQuestion_spec (e : QuizEngineState) (s : QuizSession) :
    (∀ (h : e.poolIndex < e.pool.length),
      addBonusQuestion e s =
        ({ e with poolIndex := e.poolIndex + 1 },
         { s with questions := s.questions ++ [e.pool.get ⟨e.poolIndex, h⟩],
                  bonusTriggered := true })) ∧
    (e.pool.length ≤ e.poolIndex →
      addBonusQuestion e s = (e, { s with bonusTriggered := true })) :=
  ⟨fun h => addBonusQuestion_eq_of_lt e s h,
   fun h => addBonusQuestion_eq_of_ge e s h⟩

/-- Witness for C6 at a concrete engine with one unconsumed entry. -/
theorem addBonusQuestion_spec_witness :
    addBonusQuestion { pool := [sampleQA], poolIndex := 0 } createdSession =
      ({ pool := [sampleQA], poolIndex := 1 },
       { createdSession with
         questions := createdSession.questions ++ [sampleQA],
         bonusTriggered := true }) := by
  have h := (addBonusQuestion_spec { pool := [sampleQA], poolIndex := 0 } createdSession).1
    (by decide)
  exact h.trans (by decide)

/-- C7: getRetrySession serves the next regularCount pool entries and
advances the cursor past them when that many remain unconsumed; with
fewer remaining it wraps the cursor to 0 and serves the first
regularCount entries again; in both cases the returned session has
currentIndex 0, empty answers, bonusTriggered false and stars 0. -/
theorem getRetrySession_spec (e : QuizEngineState) (s : QuizSession) :
    (e.poolIndex + (if s.isGrandQuiz then 20 else 4) ≤ e.pool.length →
      getRetrySession e s =
        ({ e with poolIndex := e.poolIndex + (if s.isGrandQuiz then 20 else 4) },
         { s with questions := (e.pool.drop e.poolIndex).take (if s.isGrandQuiz then 20 else 4),
                  currentIndex := 0, answers := [], bonusTriggered := false,
                  stars := 0 })) ∧
    (e.pool.length < e.poolIndex + (if s.isGrandQuiz then 20 else 4) →
      getRetrySession e s =
        ({ e with poolIndex := 0 },
         { s with questions := e.pool.take (if s.isGrandQuiz then 20 else 4),
                  currentIndex := 0, answers := [], bonusTriggered := false,
                  stars := 0 })) :=
  ⟨fun h => getRetrySession_eq_of_remaining e s h,
   fun h => getRetrySession_eq_of_wrap e s h⟩

/-- Witness for C7: with eight pool entries and the cursor at 4, a retry
serves entries 4 to 7 and moves the cursor to 8. -/
theorem getRetrySession_spec_witness :
    getRetrySession { pool := List.replicate 8 sampleQA, poolIndex := 4 } createdSession =
      ({ pool := List.replicate 8 sampleQA, poolIndex := 8 },
       { createdSession with
         questions := List.replicate 4 sampleQA,
         currentIndex := 0, answers := [], bonusTriggered := false, stars := 0 }) := by
  have h := (getRetrySession_spec { pool := List.replicate 8 sampleQA, poolIndex := 4 }
    createdSession).1 (by decide)
  exact h.trans (by decide)

/-- C10: whenever getRetrySession wraps, the pool cursor is left at 0
rather than regularCount, so the retry session starts with the pool entry
at index 0 as its first question while the next bonus request appends
that very entry again, leaving the session with a duplicated question. -/
theorem retry_wrap_bonus_duplicate (e : QuizEngineState) (s : QuizSession)
    (hwrap : e.pool.length < e.poolIndex + (if s.isGrandQuiz then 20 else 4))
    (hne : 0 < e.pool.length) :
    (getRetrySession e s).1.poolIndex = 0 ∧
    ((getRetrySession e s).2.questions)[0]? = some (e.pool.get ⟨0, hne⟩) ∧
    (addBonusQuestion (getRetrySession e s).1 (getRetrySession e s).2).2.questions =
      (getRetrySession e s).2.questions ++ [e.pool.get ⟨0, hne⟩] ∧
    ¬ ((addBonusQuestion (getRetrySession e s).1 (getRetrySession e s).2).2.questions).Nodup := by
  have hq : (0 : Nat) < (if s.isGrandQuiz then 20 else 4) := by
    cases s.isGrandQuiz <;> simp
  have hhead : (e.pool.take (if s.isGrandQuiz then 20 else 4))[0]? =
      some (e.pool.get ⟨0, hne⟩) := by
    rw [List.getElem?_take_of_lt hq, List.getElem?_eq_getElem hne]
    rfl
  rw [getRetrySession_eq_of_wrap e s hwrap]
  dsimp only
  rw [addBonusQuestion_eq_of_lt _ _ (show (0 : Nat) < e.pool.length from hne)]
  dsimp only
  refine ⟨rfl, hhead, rfl, ?_⟩
  intro hnd
  rw [List.nodup_append] at hnd
  have hmem : e.pool.get ⟨0, hne⟩ ∈ e.pool.take (if s.isGrandQuiz then 20 else 4) :=
    List.getElem?_mem hhead
  exact hnd.2.2 hmem (by simp)

/-- Witness for C10: three pool entries, cursor at 2, regular quiz: the
retry wraps, the cursor rests at 0, and the bonus question duplicates the
first served question. -/
theorem retry_wrap_bonus_duplicate_witness :
    ((getRetrySession { pool := [sampleQA, sampleQA, sampleQA], poolIndex := 2 }
        createdSession).1.poolIndex = 0) ∧
    ¬ ((addBonusQuestion
        (getRetrySession { pool := [sampleQA, sampleQA, sampleQA], poolIndex := 2 }
          createdSession).1
        (getRetrySession { pool := [sampleQA, sampleQA, sampleQA], poolIndex := 2 }
          createdSession).2).2.questions).Nodup := by
  have h := retry_wrap_bonus_duplicate
    { pool := [sampleQA, sampleQA, sampleQA], poolIndex := 2 } createdSession
    (by decide) (by decide)
  exact ⟨h.1, h.2.2.2⟩

/-- A stream of raw random draws: the value at position n models the n-th
call to Math.random() scaled to a nonnegative integer.  Every source call
to randInt consumes one draw. -/
def Rng := Nat → Nat

/-- Helper randInt(min, max) shared by all generators: a uniformly drawn
integer between min and max inclusive; returns the value and the advanced
stream. -/
def randInt (lo hi : Int) (r : Rng) : Int × Rng :=
  (lo + (r 0 : Int) % (hi - lo + 1), fun n => r (n + 1))

/-- String.fromCharCode(65 + i): the letter label of option position i. -/
def letter (i : Nat) : String :=
  String.singleton (Char.ofNat (65 + i))

/-- The pre-shuffle correct option of buildQuestion: id correct. -/
def mkCorrectOption (correctAnswer : String) : QuizOption :=
  { id := "correct", text := correctAnswer }

/-- The pre-shuffle distractor options of buildQuestion, written with the
running map index i: distractors.map((d, i) => (id: wrong_i, text: d)). -/
def mkWrongOptionsFrom (i : Nat) : List String → List QuizOption
  | [] => []
  | d :: rest => { id := "wrong_" ++ toString i, text := d } :: mkWrongOptionsFrom (i + 1) rest

/-- The pre-shuffle distractor options of buildQuestion: ids wrong_0,
wrong_1, ... in distractor order. -/
def mkWrongOptions (distractors : List String) : List QuizOption :=
  mkWrongOptionsFrom 0 distractors

/-- One swap step of the in-place Fisher-Yates shuffle: exchanges the
entries at positions i and j when both exist. -/
def listSwap (l : List α) (i j : Nat) : List α :=
  match l[i]?, l[j]? with
  | some a, some b => (l.set i b).set j a
  | _, _ => l

/-- The descending loop of the Fisher-Yates shuffle of
DerivativesBasicGenerator: the argument n is the current loop index, each
iteration swaps position n with a random position between 0 and n. -/
def fyAux : List α → Rng → Nat → List α × Rng
  | l, r, 0 => (l, r)
  | l, r, Nat.succ i => fyAux (listSwap l (i + 1) (r 0 % (i + 2))) (fun n => r (n + 1)) i

/-- The Fisher-Yates shuffle written out in DerivativesBasicGenerator:
for i from length-1 down to 1, swap position i with a random position
between 0 and i. -/
def fisherYates (l : List α) (r : Rng) : List α × Rng :=
  fyAux l r (l.length - 1)

/-- The relabelling step of buildQuestion: each option at position i gets
the id String.fromCharCode(65 + i), the text is kept. -/
def relabelFrom (i : Nat) : List QuizOption → List QuizOption
  | [] => []
  | o :: rest => { o with id := letter i } :: relabelFrom (i + 1) rest

/-- allOptions.map((opt, i) => (...opt, id: String.fromCharCode(65 + i))). -/
def relabel (l : List QuizOption) : List QuizOption :=
  relabelFrom 0 l

/-- labeled.find(o => o.text === correctAnswer)!.id of buildQuestion; the
non-null assertion of the source is modelled with an empty-string
fallback, shown unreachable in the theorems below. -/
def findCorrectId (labeled : List QuizOption) (correctAnswer : String) : String :=
  match labeled.find? (fun o => o.text == correctAnswer) with
  | some o => o.id
  | none => ""

/-- Position of the first entry satisfying p; used to state which option
the assigned correctOptionId letter points at. -/
def firstMatchPos (p : QuizOption → Bool) : List QuizOption → Option Nat
  | [] => none
  | o :: rest => if p o then some 0 else (firstMatchPos p rest).map (fun j => j + 1)

/-- The private buildQuestion helper shared verbatim by IntegralsGenerator
and GenericMathGenerator: one correct option plus the distractors are
shuffled by sorting with a random comparator, relabelled A, B, C, D, and
the correct id is recovered by text search.  The random-comparator sort
is modelled by the explicit shuffle parameter, constrained to produce a
permutation of its input in the theorems below. -/
def sortBuildQuestion (qid text correctAnswer : String) (distractors : List String)
    (difficulty : Difficulty) (expl : Option String)
    (shuffle : List QuizOption → List QuizOption) : QuizQuestion :=
  let correctOption := mkCorrectOption correctAnswer
  let wrongOptions := mkWrongOptions distractors
  let allOptions := shuffle (correctOption :: wrongOptions)
  let labeled := relabel allOptions
  { id := qid, text := text, options := labeled,
    correctOptionId := findCorrectId labeled correctAnswer,
    difficulty := difficulty, explanation := expl }

/-- The private buildQuestion helper of DerivativesBasicGenerator: same as
sortBuildQuestion but the shuffle is the explicit Fisher-Yates loop of
the source, driven by the random stream. -/
def derivBuildQuestion (qid text correctAnswer : String) (distractors : List String)
    (difficulty : Difficulty) (expl : Option String) (r : Rng) : QuizQuestion × Rng :=
  let correctOption := mkCorrectOption correctAnswer
  let wrongOptions := mkWrongOptions distractors
  let sh := fisherYates (correctOption :: wrongOptions) r
  let labeled := relabel sh.1
  ({ id := qid, text := text, options := labeled,
     correctOptionId := findCorrectId labeled correctAnswer,
     difficulty := difficulty, explanation := expl }, sh.2)

/-- DerivativesBasicGenerator.easyQuestion: derivative of k x^n by the
power rule, with three structured distractors. -/
def derivEasyQuestion (index now : Nat) (r : Rng) : QuizQuestion × Rng :=
  let pk := randInt 2 9 r
  let k := pk.1
  let pn := randInt 2 5 pk.2
  let n := pn.1
  let correctCoeff := k * n
  let correctPow := n - 1
  let questionText := "Find the derivative of $f(x) = " ++ toString k ++ "x^\x7b" ++
    toString n ++ "\x7d$"
  let correctAnswer :=
    if correctPow = 1 then "$" ++ toString correctCoeff ++ "x$"
    else "$" ++ toString correctCoeff ++ "x^\x7b" ++ toString correctPow ++ "\x7d$"
  let distractors :=
    [if correctPow = 1 then "$" ++ toString correctCoeff ++ "x^\x7b" ++ toString n ++ "\x7d$"
     else "$" ++ toString correctCoeff ++ "x^\x7b" ++ toString n ++ "\x7d$",
     if correctPow = 1 then "$" ++ toString k ++ "x$"
     else "$" ++ toString k ++ "x^\x7b" ++ toString correctPow ++ "\x7d$",
     "$" ++ toString correctCoeff ++ "$"]
  derivBuildQuestion ("deriv_easy_" ++ toString index ++ "_" ++ toString now)
    questionText correctAnswer distractors Difficulty.easy
    (some ("Using the power rule: $\\frac\x7bd\x7d\x7bdx\x7d[kx^n] = knx^\x7bn-1\x7d$. So $" ++
      toString k ++ " \\cdot " ++ toString n ++ " \\cdot x^\x7b" ++ toString n ++
      "-1\x7d = " ++ toString correctCoeff ++ "x^\x7b" ++ toString correctPow ++ "\x7d$"))
    pn.2

/-- The local formatTerm helper of DerivativesBasicGenerator.mediumQuestion. -/
def derivFormatTerm (coeff power : Int) : String :=
  if power = 0 then toString coeff
  else if power = 1 then toString coeff ++ "x"
  else toString coeff ++ "x^\x7b" ++ toString power ++ "\x7d"

/-- DerivativesBasicGenerator.mediumQuestion: derivative of a two-term
polynomial a x^n + b x^m with m adjusted away from n. -/
def derivMediumQuestion (index now : Nat) (r : Rng) : QuizQuestion × Rng :=
  let pa := randInt 2 7 r
  let a := pa.1
  let pn := randInt 2 4 pa.2
  let n := pn.1
  let pb := randInt 1 6 pn.2
  let b := pb.1
  let pm := randInt 1 3 pb.2
  let m := pm.1
  let mActual := if m = n then m + 1 else m
  let da := a * n
  let dn := n - 1
  let db := b * mActual
  let dm := mActual - 1
  let questionText := "Find $f\x27(x)$ if $f(x) = " ++ toString a ++ "x^\x7b" ++
    toString n ++ "\x7d + " ++ toString b ++ "x^\x7b" ++ toString mActual ++ "\x7d$"
  let correctAnswer := "$" ++ derivFormatTerm da dn ++ " + " ++ derivFormatTerm db dm ++ "$"
  let distractors :=
    ["$" ++ derivFormatTerm da n ++ " + " ++ derivFormatTerm db mActual ++ "$",
     "$" ++ derivFormatTerm a dn ++ " + " ++ derivFormatTerm b dm ++ "$",
     "$" ++ derivFormatTerm da dn ++ " + " ++ toString b ++ "$"]
  derivBuildQuestion ("deriv_med_" ++ toString index ++ "_" ++ toString now)
    questionText correctAnswer distractors Difficulty.medium none pm.2

/-- The local formatAnswer helper of DerivativesBasicGenerator.hardQuestion. -/
def derivFormatAnswer (a b coeff pow : Int) : String :=
  if pow = 1 then "$" ++ toString coeff ++ "(" ++ toString a ++ "x + " ++ toString b ++ ")$"
  else "$" ++ toString coeff ++ "(" ++ toString a ++ "x + " ++ toString b ++ ")^\x7b" ++
    toString pow ++ "\x7d$"

/-- DerivativesBasicGenerator.hardQuestion: chain-rule derivative of
(a x + b)^n. -/
def derivHardQuestion (index now : Nat) (r : Rng) : QuizQuestion × Rng :=
  let pa := randInt 2 5 r
  let a := pa.1
  let pb := randInt 1 9 pa.2
  let b := pb.1
  let pn := randInt 2 4 pb.2
  let n := pn.1
  let outerCoeff := n * a
  let outerPow := n - 1
  let questionText := "Find $f\x27(x)$ if $f(x) = (" ++ toString a ++ "x + " ++
    toString b ++ ")^\x7b" ++ toString n ++ "\x7d$"
  let correctAnswer := derivFormatAnswer a b outerCoeff outerPow
  let distractors :=
    [derivFormatAnswer a b n outerPow,
     derivFormatAnswer a b outerCoeff n,
     "$" ++ toString n ++ "(" ++ toString a ++ "x + " ++ toString b ++ ")^\x7b" ++
       toString outerPow ++ "\x7d$"]
  derivBuildQuestion ("deriv_hard_" ++ toString index ++ "_" ++ toString now)
    questionText correctAnswer distractors Difficulty.hard
    (some ("Chain rule: $\\frac\x7bd\x7d\x7bdx\x7d[(" ++ toString a ++ "x+" ++ toString b ++
      ")^\x7b" ++ toString n ++ "\x7d] = " ++ toString n ++ "(" ++ toString a ++ "x+" ++
      toString b ++ ")^\x7b" ++ toString outerPow ++ "\x7d \\cdot " ++ toString a ++
      " = " ++ toString outerCoeff ++ "(" ++ toString a ++ "x+" ++ toString b ++
      ")^\x7b" ++ toString outerPow ++ "\x7d$"))
    pn.2

/-- DerivativesBasicGenerator.generateOne: dispatch on the difficulty. -/
def derivGenerateOne (difficulty : Difficulty) (index now : Nat) (r : Rng) :
    QuizQuestion × Rng :=
  match difficulty with
  | .easy => derivEasyQuestion index now r
  | .medium => derivMediumQuestion index now r
  | .hard => derivHardQuestion index now r

/-- The difficulty queue of DerivativesBasicGenerator.generate: the
distribution counts in order easy, medium, hard, padded to count with
medium entries. -/
def derivDiffQueue (distribution : DifficultyDistribution) (count : Nat) : List Difficulty :=
  let base := List.replicate distribution.easy Difficulty.easy ++
    List.replicate distribution.medium Difficulty.medium ++
    List.replicate distribution.hard Difficulty.hard
  base ++ List.replicate (count - base.length) Difficulty.medium

/-- The generation loop of DerivativesBasicGenerator.generate: question i
takes the difficulty diffQueue[i] || medium. -/
def derivLoop (queue : List Difficulty) (now : Nat) : Nat → Nat → Rng → List QuizQuestion
  | _, 0, _ => []
  | i, Nat.succ n, r =>
    let qr := derivGenerateOne (queue.getD i Difficulty.medium) i now r
    qr.1 :: derivLoop queue now (i + 1) n qr.2

/-- DerivativesBasicGenerator.generate: build the difficulty queue from
the distribution (defaulting to easy 1, medium 2, hard 1), shuffle it
with Fisher-Yates and generate one question per entry. -/
def derivGenerate (count : Nat) (dist : Option DifficultyDistribution) (now : Nat)
    (r : Rng) : List QuizQuestion :=
  let distribution := dist.getD ⟨1, 2, 1⟩
  let sh := fisherYates (derivDiffQueue distribution count) r
  derivLoop sh.1 now 0 count sh.2

/-- IntegralsGenerator.generateOne: power-rule indefinite integral with
clean integer coefficients; difficulty always medium. -/
def integralsGenerateOne (index now : Nat)
    (shuffle : List QuizOption → List QuizOption) (r : Rng) : QuizQuestion × Rng :=
  let pa := randInt 2 6 r
  let a := pa.1
  let pn := randInt 1 4 pa.2
  let n := pn.1
  let coeff := a * (n + 1)
  let questionText := "Evaluate the indefinite integral: $\\int " ++ toString coeff ++
    "x^\x7b" ++ toString n ++ "\x7d \\, dx$"
  let correctAnswer := "$" ++ toString a ++ "x^\x7b" ++ toString (n + 1) ++ "\x7d + C$"
  let distractors :=
    ["$" ++ toString coeff ++ "x^\x7b" ++ toString (n + 1) ++ "\x7d + C$",
     "$" ++ toString a ++ "x^\x7b" ++ toString n ++ "\x7d + C$",
     "$" ++ toString (coeff * n) ++ "x^\x7b" ++ toString (n - 1) ++ "\x7d + C$"]
  (sortBuildQuestion ("integrals_" ++ toString index ++ "_" ++ toString now)
    questionText correctAnswer distractors Difficulty.medium
    (some ("Power rule for integration: $\\int x^n \\, dx = \\frac\x7bx^\x7bn+1\x7d\x7d\x7bn+1\x7d + C$. So $\\int " ++
      toString coeff ++ "x^\x7b" ++ toString n ++ "\x7d \\, dx = " ++ toString coeff ++
      " \\cdot \\frac\x7bx^\x7b" ++ toString (n + 1) ++ "\x7d\x7d\x7b" ++ toString (n + 1) ++
      "\x7d + C = " ++ toString a ++ "x^\x7b" ++ toString (n + 1) ++ "\x7d + C$"))
    shuffle, pn.2)

/-- The generation loop of IntegralsGenerator.generate. -/
def integralsLoop (now : Nat) (shuffle : List QuizOption → List QuizOption) :
    Nat → Nat → Rng → List QuizQuestion
  | _, 0, _ => []
  | i, Nat.succ n, r =>
    let qr := integralsGenerateOne i now shuffle r
    qr.1 :: integralsLoop now shuffle (i + 1) n qr.2

/-- IntegralsGenerator.generate: one question per index, the distribution
argument is ignored. -/
def integralsGenerate (count : Nat) (dist : Option DifficultyDistribution) (now : Nat)
    (shuffle : List QuizOption → List QuizOption) (r : Rng) : List QuizQuestion :=
  integralsLoop now shuffle 0 count r

/-- String.prototype.includes on character lists: isPrefixList checks a
prefix match at the head. -/
def isPrefixList : List Char → List Char → Bool
  | [], _ => true
  | _ :: _, [] => false
  | a :: as, b :: bs => a == b && isPrefixList as bs

/-- String.prototype.includes on character lists: a prefix match at some
position. -/
def containsList (needle : List Char) : List Char → Bool
  | [] => isPrefixList needle []
  | c :: rest => isPrefixList needle (c :: rest) || containsList needle rest

/-- this.id.includes(k) of GenericMathGenerator. -/
def strIncludes (s sub : String) : Bool :=
  containsList sub.data s.data

/-- GenericMathGenerator.isStatistics: keyword match on the generator id. -/
def isStatisticsId (id : String) : Bool :=
  ["stats", "probability", "regression", "anova", "data", "distribution",
   "inference", "hypothesis", "variable", "sample"].any (fun k => strIncludes id k)

/-- GenericMathGenerator.isPhysics: keyword match on the generator id. -/
def isPhysicsId (id : String) : Bool :=
  ["physics", "mechanics", "kinematics", "dynamics", "energy", "forces",
   "circuits", "magnetism", "fluids", "optics", "waves", "thermo", "torque",
   "momentum", "oscillations"].any (fun k => strIncludes id k)

/-- GenericMathGenerator.isCalculus: keyword match on the generator id. -/
def isCalculusId (id : String) : Bool :=
  ["derivative", "integral", "diff_eq", "calculus", "series", "vector",
   "parametric", "polar", "multivariable", "laplace", "matrix", "eigen"].any
    (fun k => strIncludes id k)

/-- The JavaScript numeric sort nums.sort((a, b) => a - b), modelled as a
stable insertion sort. -/
def insertSorted (x : Int) : List Int → List Int
  | [] => [x]
  | y :: ys => if x ≤ y then x :: y :: ys else y :: insertSorted x ys

/-- Ascending numeric sort of the drawn sample values. -/
def sortInts (l : List Int) : List Int :=
  l.foldr insertSorted []

/-- One attempt of GenericMathGenerator.generateStatsQuestion: five draws
between 1 and 10 sorted ascending; the Bool records whether their mean is
an integer (the source condition Number.isInteger(mean)). -/
def statsAttempt (id : String) (index now : Nat)
    (shuffle : List QuizOption → List QuizOption) (r : Rng) :
    (QuizQuestion × Rng) × Bool :=
  let p1 := randInt 1 10 r
  let p2 := randInt 1 10 p1.2
  let p3 := randInt 1 10 p2.2
  let p4 := randInt 1 10 p3.2
  let p5 := randInt 1 10 p4.2
  let nums := sortInts [p1.1, p2.1, p3.1, p4.1, p5.1]
  let sum := nums.foldl (fun a b => a + b) 0
  let mean := sum / 5
  let dataset := String.intercalate ", " (nums.map toString)
  let questionText := "Find the **mean** of the dataset: $\\\x7b" ++ dataset ++ "\\\x7d$"
  let correctAnswer := "$" ++ toString mean ++ "$"
  let distractors :=
    ["$" ++ toString (mean + 1) ++ "$",
     "$" ++ toString (mean - 1) ++ "$",
     "$" ++ toString (nums.getD 2 0) ++ "$"]
  ((sortBuildQuestion (id ++ "_stats_" ++ toString index ++ "_" ++ toString now)
      questionText correctAnswer distractors Difficulty.easy
      (some ("The mean is the sum divided by the count: $\\frac\x7b" ++
        String.intercalate "+" (nums.map toString) ++ "\x7d\x7b5\x7d = \\frac\x7b" ++
        toString sum ++ "\x7d\x7b5\x7d = " ++ toString mean ++ "$."))
      shuffle, p5.2), sum % 5 = 0)

/-- GenericMathGenerator.generateStatsQuestion: redraws until the mean is
an integer.  The source retries unboundedly through ambient randomness;
the retry depth is bounded here by an explicit fuel argument, and on
exhausted fuel the last attempt is returned as is. -/
def genericStatsQuestion (id : String) (index now : Nat)
    (shuffle : List QuizOption → List QuizOption) : Nat → Rng → QuizQuestion × Rng
  | 0, r => (statsAttempt id index now shuffle r).1
  | Nat.succ fuel, r =>
    let att := statsAttempt id index now shuffle r
    if att.2 then att.1 else genericStatsQuestion id index now shuffle fuel att.1.2

/-- GenericMathGenerator.generatePhysicsQuestion: net force F = m a. -/
def genericPhysicsQuestion (id : String) (index now : Nat)
    (shuffle : List QuizOption → List QuizOption) (r : Rng) : QuizQuestion × Rng :=
  let pm := randInt 2 10 r
  let m := pm.1
  let pa := randInt 2 10 pm.2
  let a := pa.1
  let f := m * a
  let questionText := "A mass of $" ++ toString m ++ "\\text\x7b kg\x7d$ is accelerated at $" ++
    toString a ++ "\\text\x7b m/s\x7d^2$. What is the net force?"
  let correctAnswer := "$" ++ toString f ++ "\\text\x7b N\x7d$"
  let distractors :=
    ["$" ++ toString (f + m) ++ "\\text\x7b N\x7d$",
     "$" ++ toString m ++ "\\text\x7b N\x7d$",
     "$" ++ toString a ++ "\\text\x7b N\x7d$"]
  (sortBuildQuestion (id ++ "_phys_" ++ toString index ++ "_" ++ toString now)
    questionText correctAnswer distractors Difficulty.easy
    (some ("Newton\x27s Second Law: $F = ma = " ++ toString m ++ " \\cdot " ++
      toString a ++ " = " ++ toString f ++ "\\text\x7b N\x7d$."))
    shuffle, pa.2)

/-- GenericMathGenerator.generateCalculusQuestion: a fixed conceptual
question, no random draws. -/
def genericCalculusQuestion (id : String) (index now : Nat)
    (shuffle : List QuizOption → List QuizOption) (r : Rng) : QuizQuestion × Rng :=
  (sortBuildQuestion (id ++ "_calc_" ++ toString index ++ "_" ++ toString now)
    "If $f\x27(x) > 0$ for all $x$, then $f(x)$ is:"
    "Increasing" ["Decreasing", "Constant", "Zero"] Difficulty.easy
    (some "A positive derivative $f\x27(x) > 0$ implies the function is increasing.")
    shuffle, r)

/-- GenericMathGenerator.generateAlgebraQuestion: solve a x + b = c. -/
def genericAlgebraQuestion (id : String) (index now : Nat)
    (shuffle : List QuizOption → List QuizOption) (r : Rng) : QuizQuestion × Rng :=
  let px := randInt (-10) 10 r
  let x := px.1
  let pa := randInt 2 9 px.2
  let a := pa.1
  let pb := randInt (-20) 20 pa.2
  let b := pb.1
  let c := a * x + b
  let questionText := "Solve for $x$: $" ++ toString a ++ "x " ++
    (if b ≥ 0 then "+" else "") ++ toString b ++ " = " ++ toString c ++ "$"
  let correctAnswer := "$x = " ++ toString x ++ "$"
  let distractors :=
    ["$x = " ++ toString (x + 1) ++ "$",
     "$x = " ++ toString (x - 1) ++ "$",
     "$x = " ++ toString (-x) ++ "$"]
  (sortBuildQuestion (id ++ "_alg_" ++ toString index ++ "_" ++ toString now)
    questionText correctAnswer distractors Difficulty.medium
    (some ("Subtract " ++ toString b ++ " from both sides: $" ++ toString a ++
      "x = " ++ toString (c - b) ++ "$. Then divide by " ++ toString a ++
      ": $x = " ++ toString x ++ "$."))
    shuffle, pb.2)

/-- GenericMathGenerator.generateOne: dispatch on the domain of the
generator id, falling back to algebra. -/
def genericGenerateOne (id : String) (index now : Nat)
    (shuffle : List QuizOption → List QuizOption) (fuel : Nat) (r : Rng) :
    QuizQuestion × Rng :=
  if isStatisticsId id then genericStatsQuestion id index now shuffle fuel r
  else if isPhysicsId id then genericPhysicsQuestion id index now shuffle r
  else if isCalculusId id then genericCalculusQuestion id index now shuffle r
  else genericAlgebraQuestion id index now shuffle r

/-- The generation loop of GenericMathGenerator.generate. -/
def genericLoop (id : String) (now : Nat)
    (shuffle : List QuizOption → List QuizOption) (fuel : Nat) :
    Nat → Nat → Rng → List QuizQuestion
  | _, 0, _ => []
  | i, Nat.succ n, r =>
    let qr := genericGenerateOne id i now shuffle fuel r
    qr.1 :: genericLoop id now shuffle fuel (i + 1) n qr.2

/-- GenericMathGenerator.generate: one question per index, the
distribution argument is ignored. -/
def genericGenerate (id : String) (count : Nat) (dist : Option DifficultyDistribution)
    (now : Nat) (shuffle : List QuizOption → List QuizOption) (fuel : Nat)
    (r : Rng) : List QuizQuestion :=
  genericLoop id now shuffle fuel 0 count r

/-- Helper: an index with a some lookup is in range. -/
theorem lt_length_of_getElem?_some {l : List α} {k : Nat} {x : α}
    (h : l[k]? = some x) : k < l.length := by
  by_contra hcon
  rw [List.getElem?_eq_none_iff.mpr (by omega)] at h
  exact absurd h (by simp)

/-- Helper: the element behind a some lookup. -/
theorem get_eq_of_getElem?_some {l : List α} {k : Nat} {x : α}
    (h : l[k]? = some x) (hk : k < l.length) : l.get ⟨k, hk⟩ = x := by
  have h2 := List.getElem?_eq_getElem hk
  rw [h] at h2
  exact (Option.some.inj h2).symm

/-- Helper for the swap permutation: moving the m-th element to the front
while writing x into its slot permutes x onto the front. -/
theorem cons_set_perm (x : α) : ∀ (xs : List α) (m : Nat) (hm : m < xs.length),
    (xs.get ⟨m, hm⟩ :: xs.set m x).Perm (x :: xs) := by
  intro xs
  induction xs with
  | nil => intro m hm; simp at hm
  | cons y ys ih =>
    intro m hm
    cases m with
    | zero =>
      exact List.Perm.swap x y ys
    | succ k =>
      have hk : k < ys.length := by simpa using hm
      have step1 : ((y :: ys).get ⟨k + 1, hm⟩ :: (y :: ys).set (k + 1) x).Perm
          (y :: ys.get ⟨k, hk⟩ :: ys.set k x) := by
        simp [List.set_cons_succ]
        exact List.Perm.swap y (ys.get ⟨k, hk⟩) (ys.set k x)
      have step2 : (y :: ys.get ⟨k, hk⟩ :: ys.set k x).Perm (y :: x :: ys) :=
        (ih k hk).cons y
      exact (step1.trans step2).trans (List.Perm.swap x y ys)

/-- The swap step is a permutation. -/
theorem listSwap_perm : ∀ (l : List α) (i j : Nat), (listSwap l i j).Perm l := by
  intro l
  induction l with
  | nil => intro i j; simp [listSwap]
  | cons x xs ih =>
    intro i j
    unfold listSwap
    cases i with
    | zero =>
      cases j with
      | zero => simp
      | succ k =>
        cases hk : xs[k]? with
        | none => simp [hk]
        | some b =>
          simp only [List.getElem?_cons_zero, List.getElem?_cons_succ, hk,
            List.set_cons_succ]
          have hk' : k < xs.length := lt_length_of_getElem?_some hk
          have hb := get_eq_of_getElem?_some hk hk'
          show ((b :: xs).set (k + 1) x).Perm (x :: xs)
          rw [List.set_cons_succ]
          rw [← hb]
          exact cons_set_perm x xs k hk'
    | succ k =>
      cases j with
      | zero =>
        cases hk : xs[k]? with
        | none => simp [hk]
        | some a =>
          simp only [List.getElem?_cons_zero, List.getElem?_cons_succ, hk,
            List.set_cons_succ]
          have hk' : k < xs.length := lt_length_of_getElem?_some hk
          have ha := get_eq_of_getElem?_some hk hk'
          show (a :: xs.set k x).Perm (x :: xs)
          rw [← ha]
          exact cons_set_perm x xs k hk'
      | succ m =>
        cases hk : xs[k]? with
        | none => simp [hk]
        | some b =>
          cases hm : xs[m]? with
          | none => simp [hk, hm]
          | some a =>
            simp only [List.getElem?_cons_succ, hk, hm, List.set_cons_succ]
            have htail := ih k m
            unfold listSwap at htail
            rw [hk, hm] at htail
            exact htail.cons x

/-- The Fisher-Yates loop is a permutation. -/
theorem fyAux_perm : ∀ (n : Nat) (l : List α) (r : Rng), (fyAux l r n).1.Perm l := by
  intro n
  induction n with
  | zero => intro l r; exact List.Perm.refl l
  | succ i ih =>
    intro l r
    exact (ih _ _).trans (listSwap_perm l (i + 1) (r 0 % (i + 2)))

/-- The Fisher-Yates shuffle is a permutation. -/
theorem fisherYates_perm (l : List α) (r : Rng) : (fisherYates l r).1.Perm l :=
  fyAux_perm (l.length - 1) l r

/-- Each derivatives question carries exactly the difficulty it was
generated for. -/
theorem derivGenerateOne_difficulty (d : Difficulty) (index now : Nat) (r : Rng) :
    (derivGenerateOne d index now r).1.difficulty = d := by
  cases d <;> rfl

/-- The derivatives generation loop yields one question per count. -/
theorem derivLoop_length (queue : List Difficulty) (now : Nat) :
    ∀ (n i : Nat) (r : Rng), (derivLoop queue now i n r).length = n := by
  intro n
  induction n with
  | zero => intro i r; rfl
  | succ m ih => intro i r; simp [derivLoop, ih]

/-- The difficulties of the generated questions are exactly the tail of
the queue from the start index, when the loop consumes the queue
exactly. -/
theorem derivLoop_map_difficulty (queue : List Difficulty) (now : Nat) :
    ∀ (n i : Nat) (r : Rng), i + n = queue.length →
      (derivLoop queue now i n r).map (fun q => q.difficulty) = queue.drop i := by
  intro n
  induction n with
  | zero =>
    intro i r h
    have hdrop : queue.drop i = [] := List.drop_eq_nil_of_le (by omega)
    simp [derivLoop, hdrop]
  | succ m ih =>
    intro i r h
    have hi : i < queue.length := by omega
    have hgetD : queue.getD i Difficulty.medium = queue[i] := by
      rw [List.getD_eq_getElem?_getD, List.getElem?_eq_getElem hi]
      rfl
    rw [List.drop_eq_getElem_cons hi]
    simp only [derivLoop, List.map_cons]
    rw [derivGenerateOne_difficulty, hgetD,
      ih (i + 1) _ (by omega)]

/-- Length of the difficulty queue when the distribution fits into the
requested count. -/
theorem derivDiffQueue_length (d : DifficultyDistribution) (count : Nat)
    (h : d.easy + d.medium + d.hard ≤ count) :
    (derivDiffQueue d count).length = count := by
  simp [derivDiffQueue]
  omega

/-- Difficulty counts of the queue: the medium entries are the allotted
ones plus the padding to count. -/
theorem derivDiffQueue_count (d : DifficultyDistribution) (count : Nat) :
    (derivDiffQueue d count).count Difficulty.medium =
      d.medium + (count - (d.easy + d.medium + d.hard)) ∧
    (derivDiffQueue d count).count Difficulty.easy = d.easy ∧
    (derivDiffQueue d count).count Difficulty.hard = d.hard := by
  refine ⟨?_, ?_, ?_⟩
  · simp [derivDiffQueue, List.count_append, List.count_replicate]
    omega
  · simp [derivDiffQueue, List.count_append, List.count_replicate]
  · simp [derivDiffQueue, List.count_append, List.count_replicate]

/-- The generic generation loop yields one question per count. -/
theorem genericLoop_length (id : String) (now : Nat)
    (shuffle : List QuizOption → List QuizOption) (fuel : Nat) :
    ∀ (n i : Nat) (r : Rng), (genericLoop id now shuffle fuel i n r).length = n := by
  intro n
  induction n with
  | zero => intro i r; rfl
  | succ m ih => intro i r; simp [genericLoop, ih]

/-- The integrals generation loop yields one question per count. -/
theorem integralsLoop_length (now : Nat)
    (shuffle : List QuizOption → List QuizOption) :
    ∀ (n i : Nat) (r : Rng), (integralsLoop now shuffle i n r).length = n := by
  intro n
  induction n with
  | zero => intro i r; rfl
  | succ m ih => intro i r; simp [integralsLoop, ih]

/-- Every question of the integrals loop has difficulty medium. -/
theorem integralsLoop_difficulty (now : Nat)
    (shuffle : List QuizOption → List QuizOption) :
    ∀ (n i : Nat) (r : Rng) (q : QuizQuestion),
      q ∈ integralsLoop now shuffle i n r → q.difficulty = Difficulty.medium := by
  intro n
  induction n with
  | zero => intro i r q hq; simp [integralsLoop] at hq
  | succ m ih =>
    intro i r q hq
    simp only [integralsLoop, List.mem_cons] at hq
    rcases hq with rfl | hq
    · rfl
    · exact ih (i + 1) _ q hq

/-- C8 counterexample: GenericMathGenerator is registered (for kinematics
among many other topics) yet ignores the difficulty distribution: with a
distribution summing to 0 and count 1, the single question beyond the
allotment has difficulty easy, not medium. -/
theorem generator_medium_fill_counterexample :
    (0 + 0 + 0 < 1) ∧
    (genericGenerate "kinematics" 1 (some ⟨0, 0, 0⟩) 0 (fun l => l) 0
        (fun _ => 0)).map (fun q => q.difficulty) = [Difficulty.easy] ∧
    Difficulty.easy ≠ Difficulty.medium := by
  refine ⟨by norm_num, by decide, by decide⟩

/-- C8 (amended): every modelled generator returns exactly count
questions.  DerivativesBasicGenerator honours the distribution: when its
counts fit into count, the generated difficulties hold the allotted easy
and hard numbers and the medium allotment plus the shortfall padding.
IntegralsGenerator emits only medium questions.  GenericMathGenerator
ignores the distribution (so the medium-fill clause fails for it, see the
counterexample). -/
theorem generators_count_spec (count : Nat) (d : DifficultyDistribution)
    (distA distB : Option DifficultyDistribution) (id : String) (now fuel : Nat)
    (shuffle : List QuizOption → List QuizOption) (r rg ri : Rng) :
    (derivGenerate count (some d) now r).length = count ∧
    (d.easy + d.medium + d.hard ≤ count →
      ((derivGenerate count (some d) now r).map (fun q => q.difficulty)).count
          Difficulty.medium = d.medium + (count - (d.easy + d.medium + d.hard)) ∧
      ((derivGenerate count (some d) now r).map (fun q => q.difficulty)).count
          Difficulty.easy = d.easy ∧
      ((derivGenerate count (some d) now r).map (fun q => q.difficulty)).count
          Difficulty.hard = d.hard) ∧
    (genericGenerate id count distA now shuffle fuel rg).length = count ∧
    (integralsGenerate count distB now shuffle ri).length = count ∧
    (∀ q ∈ integralsGenerate count distB now shuffle ri,
      q.difficulty = Difficulty.medium) := by
  refine ⟨?_, ?_, ?_, ?_, ?_⟩
  · exact derivLoop_length _ now count 0 _
  · intro hle
    have hperm : (fisherYates (derivDiffQueue d count) r).1.Perm (derivDiffQueue d count) :=
      fisherYates_perm _ _
    have hlen : (fisherYates (derivDiffQueue d count) r).1.length = count := by
      rw [hperm.length_eq, derivDiffQueue_length d count hle]
    have hmap : (derivGenerate count (some d) now r).map (fun q => q.difficulty) =
        (fisherYates (derivDiffQueue d count) r).1 := by
      have hdl := derivLoop_map_difficulty (fisherYates (derivDiffQueue d count) r).1
        now count 0 (fisherYates (derivDiffQueue d count) r).2 (by omega)
      simpa using hdl
    refine ⟨?_, ?_, ?_⟩ <;> rw [hmap, hperm.count_eq]
    · exact (derivDiffQueue_count d count).1
    · exact (derivDiffQueue_count d count).2.1
    · exact (derivDiffQueue_count d count).2.2
  · exact genericLoop_length id now shuffle fuel count 0 rg
  · exact integralsLoop_length now shuffle count 0 ri
  · intro q hq
    exact integralsLoop_difficulty now shuffle count 0 ri q hq

/-- Witness for the amended C8 at count 4 with the default distribution:
two medium questions are generated (the two allotted, no shortfall). -/
theorem generators_count_spec_witness :
    ((derivGenerate 4 (some ⟨1, 2, 1⟩) 0 (fun _ => 0)).map
      (fun q => q.difficulty)).count Difficulty.medium = 2 := by
  have h := (generators_count_spec 4 ⟨1, 2, 1⟩ none none "x" 0 0 (fun l => l)
    (fun _ => 0) (fun _ => 0) (fun _ => 0)).2.1 (by norm_num)
  exact h.1.trans (by norm_num)

/-- Relabelling assigns the letters of the positions, starting at i. -/
theorem relabelFrom_map_id : ∀ (l : List QuizOption) (i : Nat),
    (relabelFrom i l).map (fun o => o.id) = (List.range' i l.length).map letter := by
  intro l
  induction l with
  | nil => intro i; rfl
  | cons o rest ih =>
    intro i
    simp only [relabelFrom, List.map_cons, List.length_cons, List.range'_succ]
    rw [ih (i + 1)]

/-- The text search over the relabelled options finds the letter of the
first text match of the pre-label list. -/
theorem find_relabelFrom (ca : String) : ∀ (l : List QuizOption) (i : Nat),
    ((relabelFrom i l).find? (fun o => o.text == ca)).map (fun o => o.id) =
      (firstMatchPos (fun o => o.text == ca) l).map (fun j => letter (i + j)) := by
  intro l
  induction l with
  | nil => intro i; rfl
  | cons o rest ih =>
    intro i
    have hrel : relabelFrom i (o :: rest) =
        { o with id := letter i } :: relabelFrom (i + 1) rest := rfl
    rw [hrel]
    cases h : (o.text == ca) with
    | true =>
      rw [@List.find?_cons_of_pos _ (fun o => o.text == ca)
        ({ o with id := letter i }) (relabelFrom (i + 1) rest) h]
      unfold firstMatchPos
      simp [h]
    | false =>
      rw [@List.find?_cons_of_neg _ (fun o => o.text == ca)
        ({ o with id := letter i }) (relabelFrom (i + 1) rest) (by simp [h])]
      unfold firstMatchPos
      simp only [h, Bool.false_eq_true, if_false, ite_false]
      rw [ih (i + 1)]
      cases hrest : firstMatchPos (fun o => o.text == ca) rest with
      | none => rfl
      | some j =>
        show some (letter (i + 1 + j)) = some (letter (i + (j + 1)))
        exact congrArg some (congrArg letter (by omega))

/-- A found first-match position is in range. -/
theorem firstMatchPos_lt (p : QuizOption → Bool) : ∀ (l : List QuizOption) (j : Nat),
    firstMatchPos p l = some j → j < l.length := by
  intro l
  induction l with
  | nil => intro j h; exact Option.noConfusion h
  | cons o rest ih =>
    intro j h
    unfold firstMatchPos at h
    by_cases hp : p o
    · rw [if_pos hp] at h
      cases h
      simp
    · rw [if_neg hp] at h
      cases hrest : firstMatchPos p rest with
      | none => rw [hrest] at h; exact Option.noConfusion h
      | some k =>
        rw [hrest] at h
        have hk := ih k hrest
        have hkj : k + 1 = j := Option.some.inj h
        simp only [List.length_cons]
        omega

/-- A satisfied member yields a first-match position. -/
theorem firstMatchPos_isSome (p : QuizOption → Bool) : ∀ (l : List QuizOption),
    (∃ o ∈ l, p o = true) → ∃ j, firstMatchPos p l = some j := by
  intro l
  induction l with
  | nil => rintro ⟨o, ho, _⟩; simp at ho
  | cons a rest ih =>
    rintro ⟨o, ho, hpo⟩
    unfold firstMatchPos
    by_cases hpa : p a
    · exact ⟨0, by rw [if_pos hpa]⟩
    · rcases List.mem_cons.mp ho with rfl | hor
      · exact absurd hpo (by simp [hpa])
      · obtain ⟨j, hj⟩ := ih ⟨o, hor, hpo⟩
        exact ⟨j + 1, by rw [if_neg hpa, hj]; rfl⟩

/-- Pointwise equal predicates give the same first-match position. -/
theorem firstMatchPos_congr : ∀ (l : List QuizOption) (p q : QuizOption → Bool),
    (∀ o ∈ l, p o = q o) → firstMatchPos p l = firstMatchPos q l := by
  intro l
  induction l with
  | nil => intro p q _; rfl
  | cons a rest ih =>
    intro p q h
    unfold firstMatchPos
    rw [h a (by simp), ih p q (fun o ho => h o (by simp [ho]))]

/-- Unfolding lemma for findCorrectId on a successful search. -/
theorem findCorrectId_eq (labeled : List QuizOption) (ca : String) (o : QuizOption)
    (h : labeled.find? (fun o => o.text == ca) = some o) :
    findCorrectId labeled ca = o.id := by
  unfold findCorrectId
  rw [h]

/-- Small letters table: any position below 4 is labelled A, B, C or D. -/
theorem letter_mem_four {j : Nat} (h : j < 4) :
    letter j ∈ ["A", "B", "C", "D"] := by
  interval_cases j <;> decide

/-- Core of the option-building contract, for any permutation opts of one
correct option and the three distractors: the relabelled options carry
the ids A, B, C, D in order; the assigned correctOptionId is the letter
of the first option whose text is the correct answer; and when no
distractor text collides with the correct answer, that position is the
position of the originally-correct option. -/
theorem labeledOptions_core (ca d0 d1 d2 : String) (opts : List QuizOption)
    (hperm : opts.Perm (mkCorrectOption ca :: mkWrongOptions [d0, d1, d2])) :
    (relabel opts).map (fun o => o.id) = ["A", "B", "C", "D"] ∧
    (∃ j, firstMatchPos (fun o => o.text == ca) opts = some j ∧ j < 4 ∧
      findCorrectId (relabel opts) ca = letter j) ∧
    (ca ≠ d0 → ca ≠ d1 → ca ≠ d2 →
      firstMatchPos (fun o => o.text == ca) opts =
        firstMatchPos (fun o => o.id == "correct") opts) := by
  have hlen : opts.length = 4 := by
    rw [hperm.length_eq]
    rfl
  have hmemc : mkCorrectOption ca ∈ opts :=
    hperm.mem_iff.mpr (by simp)
  obtain ⟨j, hj⟩ := firstMatchPos_isSome (fun o => o.text == ca) opts
    ⟨mkCorrectOption ca, hmemc, by simp [mkCorrectOption]⟩
  have hjlt : j < 4 := by
    have := firstMatchPos_lt (fun o => o.text == ca) opts j hj
    omega
  refine ⟨?_, ⟨j, hj, hjlt, ?_⟩, ?_⟩
  · rw [relabel, relabelFrom_map_id, hlen]
    decide
  · have hfind := find_relabelFrom ca opts 0
    rw [hj] at hfind
    cases hfound : (relabelFrom 0 opts).find? (fun o => o.text == ca) with
    | none =>
      rw [relabel] at *
      rw [hfound] at hfind
      exact Option.noConfusion hfind
    | some o =>
      rw [relabel] at *
      rw [hfound] at hfind
      have hid : o.id = letter (0 + j) := Option.some.inj hfind
      rw [findCorrectId_eq (relabelFrom 0 opts) ca o hfound, hid]
      exact congrArg letter (by omega)
  · intro h0 h1 h2
    apply firstMatchPos_congr
    intro o ho
    have ho2 := hperm.mem_iff.mp ho
    simp only [mkWrongOptions, mkWrongOptionsFrom, List.mem_cons,
      List.not_mem_nil, or_false] at ho2
    rcases ho2 with rfl | rfl | rfl | rfl
    · simp [mkCorrectOption]
    · have ht : (d0 == ca) = false := beq_eq_false_iff_ne.mpr (fun hc => h0 hc.symm)
      simp only [ht]
      decide
    · have ht : (d1 == ca) = false := beq_eq_false_iff_ne.mpr (fun hc => h1 hc.symm)
      simp only [ht]
      decide
    · have ht : (d2 == ca) = false := beq_eq_false_iff_ne.mpr (fun hc => h2 hc.symm)
      simp only [ht]
      decide

/-- A concrete shuffle outcome rotating four options by one position; a
permutation of its input, as the final conjunct of the counterexample
checks on the list at hand. -/
def rotShuffle : List QuizOption → List QuizOption
  | [a, b, c, d] => [d, a, b, c]
  | l => l

/-- A concrete random stream driving generateAlgebraQuestion to x = 0,
a = 2, b = 0, where the distractor -x prints exactly like the correct
answer. -/
def collisionRng : Rng := fun n => if n = 0 then 10 else if n = 2 then 20 else 0

/-- C9 counterexample: the algebra question of GenericMathGenerator at
x = 0 has the distractor x = -x whose text collides with the correct
answer text; with a shuffle placing that distractor first, the code
assigns correctOptionId A (the first text match) while the
originally-correct option received the label B. -/
theorem buildQuestion_track_counterexample :
    (genericGenerate "algebra_intro" 1 none 0 rotShuffle 0 collisionRng).map
        (fun q => q.correctOptionId) = ["A"] ∧
    (rotShuffle (mkCorrectOption "$x = 0$" ::
        mkWrongOptions ["$x = 1$", "$x = -1$", "$x = 0$"])).Perm
      (mkCorrectOption "$x = 0$" ::
        mkWrongOptions ["$x = 1$", "$x = -1$", "$x = 0$"]) ∧
    (firstMatchPos (fun o => o.id == "correct")
        (rotShuffle (mkCorrectOption "$x = 0$" ::
          mkWrongOptions ["$x = 1$", "$x = -1$", "$x = 0$"]))).map letter =
      some "B" ∧
    ("A" : String) ≠ "B" := by
  refine ⟨by decide, by decide, by decide, by decide⟩

/-- C9 (amended): every question built by the shared buildQuestion
helpers (the comparator-shuffle version of GenericMathGenerator and
IntegralsGenerator, and the Fisher-Yates version of
DerivativesBasicGenerator) has exactly the four option ids A, B, C, D
assigned in order after the permutation, and correctOptionId is one of
them; correctOptionId is the label of the FIRST post-shuffle option whose
text equals the correct answer text, which is the label assigned to the
originally-correct option whenever no distractor text equals the correct
answer text (the collision case is the counterexample). -/
theorem buildQuestion_options_spec (qid text ca d0 d1 d2 : String)
    (diff : Difficulty) (expl : Option String)
    (shuffle : List QuizOption → List QuizOption)
    (hsh : ∀ l, (shuffle l).Perm l) (r : Rng) :
    (sortBuildQuestion qid text ca [d0, d1, d2] diff expl shuffle).options.map
        (fun o => o.id) = ["A", "B", "C", "D"] ∧
    (sortBuildQuestion qid text ca [d0, d1, d2] diff expl shuffle).correctOptionId ∈
        ["A", "B", "C", "D"] ∧
    some (sortBuildQuestion qid text ca [d0, d1, d2] diff expl shuffle).correctOptionId =
      (firstMatchPos (fun o => o.text == ca)
        (shuffle (mkCorrectOption ca :: mkWrongOptions [d0, d1, d2]))).map letter ∧
    ((derivBuildQuestion qid text ca [d0, d1, d2] diff expl r).1).options.map
        (fun o => o.id) = ["A", "B", "C", "D"] ∧
    ((derivBuildQuestion qid text ca [d0, d1, d2] diff expl r).1).correctOptionId ∈
        ["A", "B", "C", "D"] ∧
    some ((derivBuildQuestion qid text ca [d0, d1, d2] diff expl r).1).correctOptionId =
      (firstMatchPos (fun o => o.text == ca)
        ((fisherYates (mkCorrectOption ca :: mkWrongOptions [d0, d1, d2]) r).1)).map
          letter ∧
    (ca ≠ d0 → ca ≠ d1 → ca ≠ d2 →
      some (sortBuildQuestion qid text ca [d0, d1, d2] diff expl shuffle).correctOptionId =
        (firstMatchPos (fun o => o.id == "correct")
          (shuffle (mkCorrectOption ca :: mkWrongOptions [d0, d1, d2]))).map letter ∧
      some ((derivBuildQuestion qid text ca [d0, d1, d2] diff expl r).1).correctOptionId =
        (firstMatchPos (fun o => o.id == "correct")
          ((fisherYates (mkCorrectOption ca :: mkWrongOptions [d0, d1, d2]) r).1)).map
            letter) := by
  obtain ⟨hA, ⟨j, hj, hjlt, hfc⟩, hcong⟩ :=
    labeledOptions_core ca d0 d1 d2
      (shuffle (mkCorrectOption ca :: mkWrongOptions [d0, d1, d2])) (hsh _)
  obtain ⟨hA2, ⟨k, hk, hklt, hfc2⟩, hcong2⟩ :=
    labeledOptions_core ca d0 d1 d2
      ((fisherYates (mkCorrectOption ca :: mkWrongOptions [d0, d1, d2]) r).1)
      (fisherYates_perm _ r)
  refine ⟨hA, ?_, ?_, hA2, ?_, ?_, ?_⟩
  · show findCorrectId (relabel
      (shuffle (mkCorrectOption ca :: mkWrongOptions [d0, d1, d2]))) ca ∈
      ["A", "B", "C", "D"]
    rw [hfc]
    exact letter_mem_four hjlt
  · show some (findCorrectId (relabel
      (shuffle (mkCorrectOption ca :: mkWrongOptions [d0, d1, d2]))) ca) = _
    rw [hfc, hj]
    rfl
  · show findCorrectId (relabel
      ((fisherYates (mkCorrectOption ca :: mkWrongOptions [d0, d1, d2]) r).1)) ca ∈
      ["A", "B", "C", "D"]
    rw [hfc2]
    exact letter_mem_four hklt
  · show some (findCorrectId (relabel
      ((fisherYates (mkCorrectOption ca :: mkWrongOptions [d0, d1, d2]) r).1)) ca) = _
    rw [hfc2, hk]
    rfl
  · intro h0 h1 h2
    constructor
    · show some (findCorrectId (relabel
        (shuffle (mkCorrectOption ca :: mkWrongOptions [d0, d1, d2]))) ca) = _
      rw [hfc, ← hcong h0 h1 h2, hj]
      rfl
    · show some (findCorrectId (relabel
        ((fisherYates (mkCorrectOption ca :: mkWrongOptions [d0, d1, d2]) r).1)) ca) = _
      rw [hfc2, ← hcong2 h0 h1 h2, hk]
      rfl

/-- Witness for the amended C9 at concrete distinct answer texts and the
identity shuffle: the four labels are A, B, C, D and correctOptionId is
the label of the originally-correct option. -/
theorem buildQuestion_options_spec_witness :
    (sortBuildQuestion "q0" "t0" "ca" ["w1", "w2", "w3"] Difficulty.easy none
      (fun l => l)).options.map (fun o => o.id) = ["A", "B", "C", "D"] ∧
    some (sortBuildQuestion "q0" "t0" "ca" ["w1", "w2", "w3"] Difficulty.easy none
        (fun l => l)).correctOptionId =
      (firstMatchPos (fun o => o.id == "correct")
        ((fun l : List QuizOption => l)
          (mkCorrectOption "ca" :: mkWrongOptions ["w1", "w2", "w3"]))).map letter := by
  have h := buildQuestion_options_spec "q0" "t0" "ca" "w1" "w2" "w3" Difficulty.easy none
    (fun l => l) (fun l => List.Perm.refl l) (fun _ => 0)
  exact ⟨h.1, (h.2.2.2.2.2.2 (by decide) (by decide) (by decide)).1⟩

end KhanQuiz
